import Mathlib

/-!
Verification of the wire-protocol module of the sealfs repository
(src/common/serialization.rs): opcode registries, attribute-record byte
codec, stat/statx projections, directory entry sets and the conversions
between the internal kind numberings.

Machine integers are modelled as `Nat` (all the Rust values involved are
unsigned except where an `i64` cast is modelled explicitly).  Fallible
Rust code is modelled with `Option`/`DecodeOutcome`; a Rust `panic!` is
modelled by the dedicated `DecodeOutcome.crash` constructor, distinct
from a returned typed error, because a panic aborts the process instead
of handing an error value to the caller.
-/

/-- Outcome of a fallible Rust conversion: `ok` models `Ok(v)`, `err`
models `Err(e)` (a typed error value returned to the caller), and
`crash` models a `panic!`, which unwinds and never returns a value. -/
inductive DecodeOutcome (α : Type) where
  | ok (a : α)
  | err (e : String)
  | crash (msg : String)
deriving DecidableEq

/-- True exactly when the outcome carries a decoded value. -/
def DecodeOutcome.isOk {α : Type} : DecodeOutcome α → Bool
  | .ok _ => true
  | .err _ => false
  | .crash _ => false

/-- The filesystem operation opcodes, from `pub enum OperationType`
(discriminants 0 to 24). -/
inductive OperationType where
  | Unkown
  | Lookup
  | CreateFile
  | CreateDir
  | GetFileAttr
  | ReadDir
  | OpenFile
  | ReadFile
  | WriteFile
  | DeleteFile
  | DeleteDir
  | DirectoryAddEntry
  | DirectoryDeleteEntry
  | TruncateFile
  | CheckFile
  | CheckDir
  | CreateDirNoParent
  | CreateFileNoParent
  | DeleteDirNoParent
  | DeleteFileNoParent
  | CreateVolume
  | InitVolume
  | ListVolumes
  | DeleteVolume
  | CleanVolume
deriving DecidableEq

/-- Embedding of `impl TryFrom<u32> for OperationType`.  The source
matches on the integer and, in the wildcard arm, executes
`panic!("Unkown value: {}", value)`; that arm is modelled as a `crash`
outcome (the declared error type `()` is never constructed). -/
def OperationType.tryFrom (value : Nat) : DecodeOutcome OperationType :=
  match value with
  | 0 => .ok .Unkown
  | 1 => .ok .Lookup
  | 2 => .ok .CreateFile
  | 3 => .ok .CreateDir
  | 4 => .ok .GetFileAttr
  | 5 => .ok .ReadDir
  | 6 => .ok .OpenFile
  | 7 => .ok .ReadFile
  | 8 => .ok .WriteFile
  | 9 => .ok .DeleteFile
  | 10 => .ok .DeleteDir
  | 11 => .ok .DirectoryAddEntry
  | 12 => .ok .DirectoryDeleteEntry
  | 13 => .ok .TruncateFile
  | 14 => .ok .CheckFile
  | 15 => .ok .CheckDir
  | 16 => .ok .CreateDirNoParent
  | 17 => .ok .CreateFileNoParent
  | 18 => .ok .DeleteDirNoParent
  | 19 => .ok .DeleteFileNoParent
  | 20 => .ok .CreateVolume
  | 21 => .ok .InitVolume
  | 22 => .ok .ListVolumes
  | 23 => .ok .DeleteVolume
  | 24 => .ok .CleanVolume
  | _ => .crash ("Unkown value: " ++ toString value)

/-- Embedding of `impl From<OperationType> for u32`. -/
def OperationType.toU32 : OperationType → Nat
  | .Unkown => 0
  | .Lookup => 1
  | .CreateFile => 2
  | .CreateDir => 3
  | .GetFileAttr => 4
  | .ReadDir => 5
  | .OpenFile => 6
  | .ReadFile => 7
  | .WriteFile => 8
  | .DeleteFile => 9
  | .DeleteDir => 10
  | .DirectoryAddEntry => 11
  | .DirectoryDeleteEntry => 12
  | .TruncateFile => 13
  | .CheckFile => 14
  | .CheckDir => 15
  | .CreateDirNoParent => 16
  | .CreateFileNoParent => 17
  | .DeleteDirNoParent => 18
  | .DeleteFileNoParent => 19
  | .CreateVolume => 20
  | .InitVolume => 21
  | .ListVolumes => 22
  | .DeleteVolume => 23
  | .CleanVolume => 24

/-- The cluster-manager opcodes, from `pub enum ManagerOperationType`
(discriminants 101 to 109). -/
inductive ManagerOperationType where
  | SendHeart
  | GetMetadata
  | GetClusterStatus
  | GetHashRing
  | GetNewHashRing
  | AddNodes
  | RemoveNodes
  | UpdateServerStatus
  | FinishServer
deriving DecidableEq

/-- Embedding of `impl TryFrom<u32> for ManagerOperationType`.  As with
`OperationType`, the wildcard arm of the source is
`panic!("Unkown value: {}", value)`, modelled as `crash`. -/
def ManagerOperationType.tryFrom (value : Nat) : DecodeOutcome ManagerOperationType :=
  match value with
  | 101 => .ok .SendHeart
  | 102 => .ok .GetMetadata
  | 103 => .ok .GetClusterStatus
  | 104 => .ok .GetHashRing
  | 105 => .ok .GetNewHashRing
  | 106 => .ok .AddNodes
  | 107 => .ok .RemoveNodes
  | 108 => .ok .UpdateServerStatus
  | 109 => .ok .FinishServer
  | _ => .crash ("Unkown value: " ++ toString value)

/-- Embedding of `impl From<ManagerOperationType> for u32`. -/
def ManagerOperationType.toU32 : ManagerOperationType → Nat
  | .SendHeart => 101
  | .GetMetadata => 102
  | .GetClusterStatus => 103
  | .GetHashRing => 104
  | .GetNewHashRing => 105
  | .AddNodes => 106
  | .RemoveNodes => 107
  | .UpdateServerStatus => 108
  | .FinishServer => 109

/-- C1: the claim says decoding an integer outside the declared opcode
ranges returns a typed "unrecognized opcode" error and never crashes the
process.  The code instead panics in the wildcard arm of both `TryFrom`
implementations: at the concrete out-of-range inputs 25 and 110 the two
decoders reach the `panic!("Unkown value: {}", value)` arm, i.e. the
process crashes and no error value is returned to the caller. -/
theorem opcode_decode_crashes_on_unrecognized :
    OperationType.tryFrom 25 = DecodeOutcome.crash "Unkown value: 25" ∧
    ManagerOperationType.tryFrom 110 = DecodeOutcome.crash "Unkown value: 110" ∧
    (∀ e, OperationType.tryFrom 25 ≠ DecodeOutcome.err e) ∧
    (∀ e, ManagerOperationType.tryFrom 110 ≠ DecodeOutcome.err e) := by
  refine ⟨rfl, rfl, ?_, ?_⟩ <;> intro e h <;> simp [OperationType.tryFrom,
    ManagerOperationType.tryFrom] at h

/-- C4: decoding the integer encoding of any declared opcode returns
exactly that opcode, and for every integer outside the two declared
ranges (0 to 24 for filesystem operations, 101 to 109 for manager
operations) neither decoder succeeds (concretely, both reach the panic
arm; see C1 for the failure mode). -/
theorem opcode_encode_decode_inverse (n : Nat)
    (hlo : 24 < n) (hhi : n < 101 ∨ 109 < n) :
    (∀ k : OperationType, OperationType.tryFrom k.toU32 = DecodeOutcome.ok k) ∧
    (∀ m : ManagerOperationType,
      ManagerOperationType.tryFrom m.toU32 = DecodeOutcome.ok m) ∧
    (OperationType.tryFrom n).isOk = false ∧
    (ManagerOperationType.tryFrom n).isOk = false := by
  refine ⟨fun k => by cases k <;> rfl, fun m => by cases m <;> rfl, ?_, ?_⟩
  · match n, hlo with
    | (k + 25), _ => rfl
  · rcases hhi with h | h
    · interval_cases n <;> rfl
    · match n, h with
      | (k + 110), _ => rfl

/-- Witness for C4 at the concrete out-of-range integer 50. -/
theorem opcode_encode_decode_inverse_witness :
    (∀ k : OperationType, OperationType.tryFrom k.toU32 = DecodeOutcome.ok k) ∧
    (∀ m : ManagerOperationType,
      ManagerOperationType.tryFrom m.toU32 = DecodeOutcome.ok m) ∧
    (OperationType.tryFrom 50).isOk = false ∧
    (ManagerOperationType.tryFrom 50).isOk = false :=
  opcode_encode_decode_inverse 50 (by decide) (Or.inl (by decide))

/-- Little-endian byte image of a value at a fixed width `w` in bytes.
This is the layout model for the raw memory reinterpretation the source
performs (`file_attr_as_bytes` and friends cast a struct pointer to a
byte slice): the struct memory is modelled as each field serialized
field-by-field at its declared width, little-endian, in declaration
order.  The round-trip results below are insensitive to this choice of
injective layout, which is exactly why the source casts are inverses of
each other on the machine that performed them. -/
def leBytes : Nat → Nat → List Nat
  | 0, _ => []
  | w + 1, v => v % 256 :: leBytes w (v / 256)

/-- Read a `w`-byte little-endian value off the front of a buffer,
returning the value and the remaining bytes.  A read past the end of the
buffer is undefined behavior in the source (the cast checks nothing);
it is modelled as reading zero bytes. -/
def readLE : Nat → List Nat → Nat × List Nat
  | 0, bs => (0, bs)
  | _ + 1, [] => (0, [])
  | w + 1, b :: bs =>
    let p := readLE w bs
    (b + 256 * p.1, p.2)

/-- Reading back a little-endian image recovers the value and leaves the
rest of the buffer untouched, provided the value fits in the width. -/
theorem readLE_leBytes : ∀ (w v : Nat) (rest : List Nat), v < 256 ^ w →
    readLE w (leBytes w v ++ rest) = (v, rest)
  | 0, v, rest, h => by
    have hv : v = 0 := Nat.lt_one_iff.mp (by simpa using h)
    simp [leBytes, readLE, hv]
  | w + 1, v, rest, h => by
    have hdiv : v / 256 < 256 ^ w := by
      rw [Nat.div_lt_iff_lt_mul (by norm_num : (0 : Nat) < 256)]
      calc v < 256 ^ (w + 1) := h
        _ = 256 ^ w * 256 := by rw [pow_succ]
    simp [leBytes, readLE, readLE_leBytes w (v / 256) rest hdiv]
    omega

/-- Variant of `readLE_leBytes` for the final field of a record, where
no bytes follow. -/
theorem readLE_leBytes_nil (w v : Nat) (h : v < 256 ^ w) :
    readLE w (leBytes w v) = (v, []) := by
  have := readLE_leBytes w v [] h
  simpa using this

/-- Model of `std::time::SystemTime` as a point on or after the Unix
epoch: whole seconds and the sub-second nanoseconds, as stored by the
platform representation (a seconds/nanoseconds pair). -/
structure STime where
  secs : Nat
  nanos : Nat
deriving DecidableEq

/-- Byte image of a `SystemTime` field: 8 bytes of seconds followed by
4 bytes of nanoseconds. -/
def stBytes (t : STime) : List Nat :=
  leBytes 8 t.secs ++ leBytes 4 t.nanos

/-- Read a `SystemTime` field back from the front of a buffer. -/
def readSTime (bs : List Nat) : STime × List Nat :=
  let ps := readLE 8 bs
  let pn := readLE 4 ps.2
  (⟨ps.1, pn.1⟩, pn.2)

/-- Bounds under which an `STime` is representable in its byte image. -/
def STimeWF (t : STime) : Prop :=
  t.secs < 256 ^ 8 ∧ t.nanos < 256 ^ 4

instance (t : STime) : Decidable (STimeWF t) := by
  unfold STimeWF; infer_instance

/-- Reading back the byte image of a time recovers it. -/
theorem readSTime_stBytes (t : STime) (rest : List Nat)
    (hs : t.secs < 256 ^ 8) (hn : t.nanos < 256 ^ 4) :
    readSTime (stBytes t ++ rest) = (t, rest) := by
  simp [readSTime, stBytes, List.append_assoc,
    readLE_leBytes 8 t.secs _ hs, readLE_leBytes 4 t.nanos rest hn]

/-- The seven inode kinds of `fuser::FileType`, in declaration order. -/
inductive FileType where
  | NamedPipe
  | CharDevice
  | BlockDevice
  | Directory
  | RegularFile
  | Symlink
  | Socket
deriving DecidableEq

/-- Discriminant of a `fuser::FileType` value (its byte image). -/
def fileTypeToNat : FileType → Nat
  | .NamedPipe => 0
  | .CharDevice => 1
  | .BlockDevice => 2
  | .Directory => 3
  | .RegularFile => 4
  | .Symlink => 5
  | .Socket => 6

/-- Reinterpret a discriminant byte as a `fuser::FileType`; a byte that
is no valid discriminant is undefined behavior in the source cast,
modelled as `none`. -/
def fileTypeOfNat : Nat → Option FileType
  | 0 => some .NamedPipe
  | 1 => some .CharDevice
  | 2 => some .BlockDevice
  | 3 => some .Directory
  | 4 => some .RegularFile
  | 5 => some .Symlink
  | 6 => some .Socket
  | _ => none

/-- Reinterpreting the discriminant of a kind recovers the kind. -/
theorem fileTypeOfNat_toNat (k : FileType) :
    fileTypeOfNat (fileTypeToNat k) = some k := by
  cases k <;> rfl

/-- Every kind discriminant fits in one byte. -/
theorem fileTypeToNat_lt (k : FileType) : fileTypeToNat k < 256 ^ 1 := by
  cases k <;> decide

/-- Model of `fuser::FileAttr`, the kernel-interface attribute record:
inode number, size, block count, the four timestamps, kind, permission
bits, link count, uid, gid, device id, flags and preferred block size. -/
structure FileAttr where
  ino : Nat
  size : Nat
  blocks : Nat
  atime : STime
  mtime : STime
  ctime : STime
  crtime : STime
  kind : FileType
  perm : Nat
  nlink : Nat
  uid : Nat
  gid : Nat
  rdev : Nat
  flags : Nat
  blksize : Nat
deriving DecidableEq

/-- Embedding of `file_attr_as_bytes`: the source casts the `FileAttr`
reference to a byte slice of `size_of::<FileAttr>()` bytes; the memory
image is modelled by the field-by-field layout described at `leBytes`. -/
def file_attr_as_bytes (a : FileAttr) : List Nat :=
  leBytes 8 a.ino ++ leBytes 8 a.size ++ leBytes 8 a.blocks ++
  stBytes a.atime ++ stBytes a.mtime ++ stBytes a.ctime ++ stBytes a.crtime ++
  leBytes 1 (fileTypeToNat a.kind) ++ leBytes 2 a.perm ++ leBytes 4 a.nlink ++
  leBytes 4 a.uid ++ leBytes 4 a.gid ++ leBytes 4 a.rdev ++ leBytes 4 a.flags ++
  leBytes 4 a.blksize

/-- The byte width of the modelled attribute record layout (the role of
`std::mem::size_of::<FileAttr>()` in the source). -/
def fileAttrEncodedSize : Nat := 8 + 8 + 8 + 12 + 12 + 12 + 12 + 1 + 2 + 4 + 4 + 4 + 4 + 4 + 4

/-- Embedding of `bytes_as_file_attr`: the source casts the buffer
pointer to a `FileAttr` reference WITHOUT any validation whatsoever —
there is no length comparison and no error path.  Reads past the end of
a short buffer and an invalid kind discriminant are undefined behavior
in the source; they are modelled as zero bytes and as `none`
respectively.  Crucially, no branch of this function inspects the
buffer length. -/
def bytes_as_file_attr (bytes : List Nat) : Option FileAttr :=
  let pino := readLE 8 bytes
  let psize := readLE 8 pino.2
  let pblocks := readLE 8 psize.2
  let patime := readSTime pblocks.2
  let pmtime := readSTime patime.2
  let pctime := readSTime pmtime.2
  let pcrtime := readSTime pctime.2
  let pkind := readLE 1 pcrtime.2
  let pperm := readLE 2 pkind.2
  let pnlink := readLE 4 pperm.2
  let puid := readLE 4 pnlink.2
  let pgid := readLE 4 puid.2
  let prdev := readLE 4 pgid.2
  let pflags := readLE 4 prdev.2
  let pblksize := readLE 4 pflags.2
  match fileTypeOfNat pkind.1 with
  | none => none
  | some kind =>
    some ⟨pino.1, psize.1, pblocks.1, patime.1, pmtime.1, pctime.1, pcrtime.1,
      kind, pperm.1, pnlink.1, puid.1, pgid.1, prdev.1, pflags.1, pblksize.1⟩

/-- Field bounds under which a `FileAttr` is representable in its byte
image (each field fits its declared machine width). -/
def FileAttrWF (a : FileAttr) : Prop :=
  a.ino < 256 ^ 8 ∧ a.size < 256 ^ 8 ∧ a.blocks < 256 ^ 8 ∧
  STimeWF a.atime ∧ STimeWF a.mtime ∧ STimeWF a.ctime ∧ STimeWF a.crtime ∧
  a.perm < 256 ^ 2 ∧ a.nlink < 256 ^ 4 ∧ a.uid < 256 ^ 4 ∧ a.gid < 256 ^ 4 ∧
  a.rdev < 256 ^ 4 ∧ a.flags < 256 ^ 4 ∧ a.blksize < 256 ^ 4

instance (a : FileAttr) : Decidable (FileAttrWF a) := by
  unfold FileAttrWF; infer_instance

/-- Round-trip for the kernel-interface attribute record view. -/
theorem bytes_as_file_attr_roundtrip (a : FileAttr) (h : FileAttrWF a) :
    bytes_as_file_attr (file_attr_as_bytes a) = some a := by
  obtain ⟨h1, h2, h3, ⟨ha1, ha2⟩, ⟨hm1, hm2⟩, ⟨hc1, hc2⟩, ⟨hr1, hr2⟩,
    h4, h5, h6, h7, h8, h9, h10⟩ := h
  have hk : fileTypeToNat a.kind < 256 ^ 1 := fileTypeToNat_lt a.kind
  simp only [file_attr_as_bytes, List.append_assoc]
  simp (disch := assumption) only [bytes_as_file_attr, readLE_leBytes,
    readLE_leBytes_nil, readSTime_stBytes, fileTypeOfNat_toNat]

/-- Model of `FileAttrSimple`, the wire-level attribute record: like
`fuser::FileAttr` but without an inode number and with the kind stored
as a plain `u32` (the internal numbering written by
`FileAttrSimple::new`, not the `FileTypeSimple` wire encoding). -/
structure FileAttrSimple where
  size : Nat
  blocks : Nat
  atime : STime
  mtime : STime
  ctime : STime
  crtime : STime
  kind : Nat
  perm : Nat
  nlink : Nat
  uid : Nat
  gid : Nat
  rdev : Nat
  flags : Nat
  blksize : Nat
deriving DecidableEq

/-- Embedding of `FileAttrSimple::as_bytes`: the source casts the
struct reference to a byte slice of `size_of::<FileAttrSimple>()`
bytes; the memory image is modelled field-by-field as for
`file_attr_as_bytes`. -/
def FileAttrSimple.as_bytes (s : FileAttrSimple) : List Nat :=
  leBytes 8 s.size ++ leBytes 8 s.blocks ++
  stBytes s.atime ++ stBytes s.mtime ++ stBytes s.ctime ++ stBytes s.crtime ++
  leBytes 4 s.kind ++ leBytes 2 s.perm ++ leBytes 4 s.nlink ++
  leBytes 4 s.uid ++ leBytes 4 s.gid ++ leBytes 4 s.rdev ++ leBytes 4 s.flags ++
  leBytes 4 s.blksize

/-- Reading a `FileAttrSimple` back from a byte buffer: models filling
the struct memory through `FileAttrSimple::as_mut_bytes` (the reverse
direction of the same unchecked cast).  Every field is a plain integer,
so this read is total; like `bytes_as_file_attr` it performs no length
validation of any kind. -/
def bytes_as_file_attr_simple (bytes : List Nat) : FileAttrSimple :=
  let psize := readLE 8 bytes
  let pblocks := readLE 8 psize.2
  let patime := readSTime pblocks.2
  let pmtime := readSTime patime.2
  let pctime := readSTime pmtime.2
  let pcrtime := readSTime pctime.2
  let pkind := readLE 4 pcrtime.2
  let pperm := readLE 2 pkind.2
  let pnlink := readLE 4 pperm.2
  let puid := readLE 4 pnlink.2
  let pgid := readLE 4 puid.2
  let prdev := readLE 4 pgid.2
  let pflags := readLE 4 prdev.2
  let pblksize := readLE 4 pflags.2
  ⟨psize.1, pblocks.1, patime.1, pmtime.1, pctime.1, pcrtime.1,
    pkind.1, pperm.1, pnlink.1, puid.1, pgid.1, prdev.1, pflags.1, pblksize.1⟩

/-- Field bounds under which a `FileAttrSimple` is representable in its
byte image. -/
def FileAttrSimpleWF (s : FileAttrSimple) : Prop :=
  s.size < 256 ^ 8 ∧ s.blocks < 256 ^ 8 ∧
  STimeWF s.atime ∧ STimeWF s.mtime ∧ STimeWF s.ctime ∧ STimeWF s.crtime ∧
  s.kind < 256 ^ 4 ∧ s.perm < 256 ^ 2 ∧ s.nlink < 256 ^ 4 ∧ s.uid < 256 ^ 4 ∧
  s.gid < 256 ^ 4 ∧ s.rdev < 256 ^ 4 ∧ s.flags < 256 ^ 4 ∧ s.blksize < 256 ^ 4

instance (s : FileAttrSimple) : Decidable (FileAttrSimpleWF s) := by
  unfold FileAttrSimpleWF; infer_instance

/-- Round-trip for the wire-level attribute record view. -/
theorem bytes_as_file_attr_simple_roundtrip (s : FileAttrSimple)
    (h : FileAttrSimpleWF s) :
    bytes_as_file_attr_simple (FileAttrSimple.as_bytes s) = s := by
  obtain ⟨h1, h2, ⟨ha1, ha2⟩, ⟨hm1, hm2⟩, ⟨hc1, hc2⟩, ⟨hr1, hr2⟩,
    h3, h4, h5, h6, h7, h8, h9, h10⟩ := h
  simp only [FileAttrSimple.as_bytes, List.append_assoc]
  simp (disch := assumption) only [bytes_as_file_attr_simple, readLE_leBytes,
    readLE_leBytes_nil, readSTime_stBytes]

/-- C2: the claim says decoding a buffer whose length differs from the
fixed record size fails with a length-mismatch error carrying both
sizes.  The code performs an unchecked pointer reinterpretation with no
length comparison and no error path: here the empty buffer, whose
length 0 is not the record size, still decodes to a value (reading the
missing memory is undefined behavior in the source, modelled as zero
bytes) instead of producing any error. -/
theorem bytes_as_file_attr_no_length_check :
    List.length ([] : List Nat) ≠ fileAttrEncodedSize ∧
    bytes_as_file_attr [] =
      some ⟨0, 0, 0, ⟨0, 0⟩, ⟨0, 0⟩, ⟨0, 0⟩, ⟨0, 0⟩, FileType.NamedPipe,
        0, 0, 0, 0, 0, 0, 0⟩ ∧
    bytes_as_file_attr_simple [] =
      ⟨0, 0, ⟨0, 0⟩, ⟨0, 0⟩, ⟨0, 0⟩, ⟨0, 0⟩, 0, 0, 0, 0, 0, 0, 0, 0⟩ := by
  refine ⟨by decide, by decide, by decide⟩

/-- C3: decoding the encoding of an attribute record whose fields are
within the valid machine-width ranges yields the original record, both
for the kernel-interface `FileAttr` byte view (`file_attr_as_bytes`
then `bytes_as_file_attr`) and for the `FileAttrSimple` byte view. -/
theorem attr_record_encode_decode_roundtrip (a : FileAttr) (s : FileAttrSimple)
    (ha : FileAttrWF a) (hs : FileAttrSimpleWF s) :
    bytes_as_file_attr (file_attr_as_bytes a) = some a ∧
    bytes_as_file_attr_simple (FileAttrSimple.as_bytes s) = s :=
  ⟨bytes_as_file_attr_roundtrip a ha, bytes_as_file_attr_simple_roundtrip s hs⟩

/-- A sample in-range kernel-interface attribute record. -/
def sampleAttr : FileAttr :=
  ⟨7, 4096, 8, ⟨100, 5⟩, ⟨200, 6⟩, ⟨300, 7⟩, ⟨400, 8⟩, FileType.Directory,
    420, 2, 1000, 1000, 0, 0, 4096⟩

/-- A sample in-range wire-level attribute record. -/
def sampleAttrSimple : FileAttrSimple :=
  ⟨4096, 8, ⟨100, 5⟩, ⟨200, 6⟩, ⟨300, 7⟩, ⟨400, 8⟩, 3, 420, 2, 1000, 1000,
    0, 0, 4096⟩

/-- Witness for C3 at concrete records. -/
theorem attr_record_encode_decode_roundtrip_witness :
    bytes_as_file_attr (file_attr_as_bytes sampleAttr) = some sampleAttr ∧
    bytes_as_file_attr_simple (FileAttrSimple.as_bytes sampleAttrSimple) =
      sampleAttrSimple :=
  attr_record_encode_decode_roundtrip sampleAttr sampleAttrSimple
    (by decide) (by decide)

/-- Model of a Rust `as i64` cast from an unsigned value: keep the low
64 bits and reinterpret them as a signed two-complement value. -/
def i64ofNat (n : Nat) : Int :=
  if n % 2 ^ 64 < 2 ^ 63 then ((n % 2 ^ 64 : Nat) : Int)
  else ((n % 2 ^ 64 : Nat) : Int) - 2 ^ 64

/-- Model of a Rust `as u16` truncating cast. -/
def u16cast (n : Nat) : Nat := n % 65536

/-- Model of `t.duration_since(UNIX_EPOCH).unwrap().as_secs()`.  An
`STime` is a point at or after the epoch, so the `unwrap` succeeds and
the duration is the time itself. -/
def STime.asSecs (t : STime) : Nat := t.secs

/-- Model of `t.duration_since(UNIX_EPOCH).unwrap().as_nanos()`: the
WHOLE duration expressed in nanoseconds, not the sub-second part. -/
def STime.asNanos (t : STime) : Nat := t.secs * 1000000000 + t.nanos

/-- The `libc` file-kind bits chosen by `tostat`/`tostatx` for each
inode kind: `S_IFIFO`, `S_IFCHR`, `S_IFBLK`, `S_IFDIR`, `S_IFREG`,
`S_IFLNK`, `S_IFSOCK`. -/
def statKindBits : FileType → Nat
  | .NamedPipe => 0x1000
  | .CharDevice => 0x2000
  | .BlockDevice => 0x6000
  | .Directory => 0x4000
  | .RegularFile => 0x8000
  | .Symlink => 0xA000
  | .Socket => 0xC000

/-- The fields of `libc::stat` that `tostat` writes.  `struct stat` has
no creation-time field, so `tostat` cannot and does not carry
`crtime`. -/
structure StatBuf where
  st_dev : Nat
  st_ino : Nat
  st_mode : Nat
  st_nlink : Nat
  st_uid : Nat
  st_gid : Nat
  st_rdev : Nat
  st_size : Int
  st_blksize : Int
  st_blocks : Int
  st_atime : Int
  st_atime_nsec : Int
  st_mtime : Int
  st_mtime_nsec : Int
  st_ctime : Int
  st_ctime_nsec : Int
deriving DecidableEq

/-- Embedding of `tostat`: the source writes the listed fields of a
caller-provided `stat` buffer; the write is modelled as producing the
record of written values.  Note the `_nsec` fields receive
`as_nanos() as i64`, the whole duration in nanoseconds. -/
def tostat (attr : FileAttr) : StatBuf :=
  { st_dev := 0
    st_ino := 0
    st_mode := statKindBits attr.kind ||| attr.perm
    st_nlink := attr.nlink
    st_uid := attr.uid
    st_gid := attr.gid
    st_rdev := attr.rdev
    st_size := i64ofNat attr.size
    st_blksize := i64ofNat attr.blksize
    st_blocks := i64ofNat attr.blocks
    st_atime := i64ofNat attr.atime.asSecs
    st_atime_nsec := i64ofNat attr.atime.asNanos
    st_mtime := i64ofNat attr.mtime.asSecs
    st_mtime_nsec := i64ofNat attr.mtime.asNanos
    st_ctime := i64ofNat attr.ctime.asSecs
    st_ctime_nsec := i64ofNat attr.ctime.asNanos }

/-- The fields of `libc::statx` that `tostatx` writes (each timestamp
is a `statx_timestamp` of seconds and nanoseconds). -/
structure StatxBuf where
  stx_mask : Nat
  stx_ino : Nat
  stx_mode : Nat
  stx_nlink : Nat
  stx_uid : Nat
  stx_gid : Nat
  stx_size : Nat
  stx_blksize : Nat
  stx_blocks : Nat
  stx_atime_sec : Int
  stx_atime_nsec : Nat
  stx_btime_sec : Int
  stx_btime_nsec : Nat
  stx_mtime_sec : Int
  stx_mtime_nsec : Nat
  stx_ctime_sec : Int
  stx_ctime_nsec : Nat
deriving DecidableEq

/-- Embedding of `tostatx`.  The source writes every timestamp with
`tv_nsec: 0` and writes the creation timestamp `stx_btime` as all
zeros, dropping `attr.crtime` entirely; the kind bits pass through an
`as u16` cast before being or-ed with the permissions. -/
def tostatx (attr : FileAttr) : StatxBuf :=
  { stx_mask := 0
    stx_ino := 0
    stx_mode := u16cast (statKindBits attr.kind) ||| attr.perm
    stx_nlink := attr.nlink
    stx_uid := attr.uid
    stx_gid := attr.gid
    stx_size := attr.size
    stx_blksize := attr.blksize
    stx_blocks := attr.blocks
    stx_atime_sec := i64ofNat attr.atime.asSecs
    stx_atime_nsec := 0
    stx_btime_sec := 0
    stx_btime_nsec := 0
    stx_mtime_sec := i64ofNat attr.mtime.asSecs
    stx_mtime_nsec := 0
    stx_ctime_sec := i64ofNat attr.ctime.asSecs
    stx_ctime_nsec := 0 }

/-- A concrete attribute record whose timestamps have both a whole
second and a sub-second part, exhibiting the timestamp behavior of the
two projections. -/
def statSampleAttr : FileAttr :=
  ⟨0, 0, 0, ⟨1, 500⟩, ⟨2, 600⟩, ⟨3, 700⟩, ⟨5, 7⟩, FileType.RegularFile,
    420, 1, 0, 0, 0, 0, 0⟩

/-- C5 counterexample: the claim says both projections split each of
the four timestamps into POSIX seconds and nanoseconds fields.  At a
concrete record with access time 1s + 500ns, modify time 2s + 600ns and
creation time 5s + 7ns: `tostat` puts 1000000500 (the whole duration in
nanoseconds), not 500, in the access-time nanoseconds field; `tostatx`
zeroes every nanoseconds field (600 is lost) and writes the creation
timestamp as 0 rather than 5s + 7ns. -/
theorem tostat_timestamp_split_fails :
    (tostat statSampleAttr).st_atime_nsec ≠ (statSampleAttr.atime.nanos : Int) ∧
    (tostatx statSampleAttr).stx_mtime_nsec ≠ statSampleAttr.mtime.nanos ∧
    (tostatx statSampleAttr).stx_btime_sec ≠ (statSampleAttr.crtime.secs : Int) := by
  refine ⟨by decide, by decide, by decide⟩

/-- C5 as amended: both projections write device id (where the layout
has one) and inode number as zero and mode as the bitwise-OR of the
kind bits and the permission bits.  For the access, modify and change
times, `tostat` writes the POSIX seconds field correctly but fills the
nanoseconds field with the whole duration in nanoseconds (not the
sub-second part), and writes no creation time (`struct stat` has no
such field); `tostatx` writes only the seconds, zeroes every
nanoseconds field, and writes the creation timestamp as zero. -/
theorem tostat_tostatx_projection_fields (a : FileAttr) :
    (tostat a).st_dev = 0 ∧ (tostat a).st_ino = 0 ∧
    (tostat a).st_mode = statKindBits a.kind ||| a.perm ∧
    (tostat a).st_atime = i64ofNat a.atime.asSecs ∧
    (tostat a).st_atime_nsec = i64ofNat a.atime.asNanos ∧
    (tostat a).st_mtime = i64ofNat a.mtime.asSecs ∧
    (tostat a).st_mtime_nsec = i64ofNat a.mtime.asNanos ∧
    (tostat a).st_ctime = i64ofNat a.ctime.asSecs ∧
    (tostat a).st_ctime_nsec = i64ofNat a.ctime.asNanos ∧
    (tostatx a).stx_ino = 0 ∧
    (tostatx a).stx_mode = u16cast (statKindBits a.kind) ||| a.perm ∧
    (tostatx a).stx_atime_sec = i64ofNat a.atime.asSecs ∧
    (tostatx a).stx_atime_nsec = 0 ∧
    (tostatx a).stx_btime_sec = 0 ∧
    (tostatx a).stx_btime_nsec = 0 ∧
    (tostatx a).stx_mtime_sec = i64ofNat a.mtime.asSecs ∧
    (tostatx a).stx_mtime_nsec = 0 ∧
    (tostatx a).stx_ctime_sec = i64ofNat a.ctime.asSecs ∧
    (tostatx a).stx_ctime_nsec = 0 := by
  simp [tostat, tostatx]

/-- The wire-level inode kinds, from `pub enum FileTypeSimple`
(discriminants 0 to 6 in this declaration order). -/
inductive FileTypeSimple where
  | RegularFile
  | NamedPipe
  | CharDevice
  | BlockDevice
  | Directory
  | Symlink
  | Socket
deriving DecidableEq

/-- Embedding of `impl From<FileTypeSimple> for FileType` (the
variant-for-variant conversion to the kernel-interface kind). -/
def FileType.fromSimple : FileTypeSimple → FileType
  | .RegularFile => .RegularFile
  | .NamedPipe => .NamedPipe
  | .CharDevice => .CharDevice
  | .BlockDevice => .BlockDevice
  | .Directory => .Directory
  | .Symlink => .Symlink
  | .Socket => .Socket

/-- Embedding of `impl From<FileTypeSimple> for u32` (the wire
encoding of the kind: RegularFile 0, NamedPipe 1, ..., Socket 6). -/
def fileTypeSimpleToU32 : FileTypeSimple → Nat
  | .RegularFile => 0
  | .NamedPipe => 1
  | .CharDevice => 2
  | .BlockDevice => 3
  | .Directory => 4
  | .Symlink => 5
  | .Socket => 6

/-- The integer kind code that `FileAttrSimple::new` stores in the
`kind` field (a DIFFERENT numbering from `fileTypeSimpleToU32`:
NamedPipe 0, CharDevice 1, BlockDevice 2, Directory 3, RegularFile 4,
Symlink 5, Socket 6). -/
def storedKindCode : FileTypeSimple → Nat
  | .NamedPipe => 0
  | .CharDevice => 1
  | .BlockDevice => 2
  | .Directory => 3
  | .RegularFile => 4
  | .Symlink => 5
  | .Socket => 6

/-- Embedding of `FileAttrSimple::new`.  The source calls
`SystemTime::now()` for each of the four timestamps; the clock reading
is passed in explicitly as `now` (one instant stands for the four
back-to-back calls). -/
def FileAttrSimple.new (t : FileTypeSimple) (now : STime) : FileAttrSimple :=
  let kind : Nat :=
    match t with
    | .NamedPipe => 0
    | .CharDevice => 1
    | .BlockDevice => 2
    | .Directory => 3
    | .RegularFile => 4
    | .Symlink => 5
    | .Socket => 6
  let size : Nat :=
    match t with
    | .Directory => 4096
    | _ => 0
  ⟨size, 0, now, now, now, now, kind, 0, 0, 0, 0, 0, 0, 0⟩

/-- The kind decoding performed by `impl From<FileAttrSimple> for
fuser::FileAttr`: integer codes 0 to 6 map to the seven kinds and the
wildcard arm of the source maps EVERY other integer to
`FileType::RegularFile`. -/
def kindCodeToFileType (n : Nat) : FileType :=
  match n with
  | 0 => .NamedPipe
  | 1 => .CharDevice
  | 2 => .BlockDevice
  | 3 => .Directory
  | 4 => .RegularFile
  | 5 => .Symlink
  | 6 => .Socket
  | _ => .RegularFile

/-- Every kind code above 6 falls into the wildcard arm. -/
theorem kindCodeToFileType_default (n : Nat) (h : 6 < n) :
    kindCodeToFileType n = FileType.RegularFile := by
  match n, h with
  | (k + 7), _ => rfl

/-- Embedding of `impl From<FileAttrSimple> for fuser::FileAttr`: a
total conversion writing `ino := 0`, decoding the kind code via
`kindCodeToFileType` and copying every other field. -/
def FileAttr.fromSimple (attr : FileAttrSimple) : FileAttr :=
  ⟨0, attr.size, attr.blocks, attr.atime, attr.mtime, attr.ctime, attr.crtime,
    kindCodeToFileType attr.kind, attr.perm, attr.nlink, attr.uid, attr.gid,
    attr.rdev, attr.flags, attr.blksize⟩

/-- C6 counterexample: the claim says a freshly created directory
record has size 4096 and EVERY other field zero, but the `kind` field
of `FileAttrSimple::new(Directory)` holds the stored kind code 3, not
zero (and the four timestamps hold the clock reading, not zero). -/
theorem new_directory_kind_nonzero :
    (FileAttrSimple.new FileTypeSimple.Directory ⟨0, 0⟩).kind = 3 ∧
    (FileAttrSimple.new FileTypeSimple.Directory ⟨0, 0⟩).kind ≠ 0 ∧
    (FileAttrSimple.new FileTypeSimple.RegularFile ⟨9, 1⟩).atime = ⟨9, 1⟩ := by
  refine ⟨by decide, by decide, by decide⟩

/-- C6 as amended: a freshly created record has size 4096 for a
directory and 0 for every other kind; the counters and id fields
(blocks, perm, nlink, uid, gid, rdev, flags, blksize) start at zero;
the `kind` field stores the internal kind code of the requested kind
and the four timestamps hold the creation-time clock reading. -/
theorem new_attr_initial_fields (t : FileTypeSimple) (now : STime) :
    (FileAttrSimple.new t now).size
      = (if t = FileTypeSimple.Directory then 4096 else 0) ∧
    (FileAttrSimple.new t now).kind = storedKindCode t ∧
    (FileAttrSimple.new t now).blocks = 0 ∧
    (FileAttrSimple.new t now).perm = 0 ∧
    (FileAttrSimple.new t now).nlink = 0 ∧
    (FileAttrSimple.new t now).uid = 0 ∧
    (FileAttrSimple.new t now).gid = 0 ∧
    (FileAttrSimple.new t now).rdev = 0 ∧
    (FileAttrSimple.new t now).flags = 0 ∧
    (FileAttrSimple.new t now).blksize = 0 ∧
    (FileAttrSimple.new t now).atime = now ∧
    (FileAttrSimple.new t now).mtime = now ∧
    (FileAttrSimple.new t now).ctime = now ∧
    (FileAttrSimple.new t now).crtime = now := by
  cases t <;>
    exact ⟨rfl, rfl, rfl, rfl, rfl, rfl, rfl, rfl, rfl, rfl, rfl, rfl, rfl, rfl⟩

/-- C9 counterexample: the claim says converting a record whose kind
code is outside the seven variants surfaces an error; instead the
conversion succeeds and silently coerces the out-of-range code 99 to
`FileType::RegularFile`. -/
theorem from_simple_bad_kind_not_rejected :
    (FileAttr.fromSimple
      ⟨0, 0, ⟨0, 0⟩, ⟨0, 0⟩, ⟨0, 0⟩, ⟨0, 0⟩, 99, 0, 0, 0, 0, 0, 0, 0⟩).kind
      = FileType.RegularFile ∧ 6 < (99 : Nat) := by
  refine ⟨by decide, by decide⟩

/-- C9 as amended: the conversion from `FileAttrSimple` to the
kernel-interface attribute form is total; every kind code outside the
seven closed variants is silently coerced to `FileType::RegularFile`
by the wildcard arm, and no error reaches the caller. -/
theorem from_simple_coerces_bad_kind (s : FileAttrSimple) (h : 6 < s.kind) :
    (FileAttr.fromSimple s).kind = FileType.RegularFile := by
  simp [FileAttr.fromSimple, kindCodeToFileType_default s.kind h]

/-- Witness for the amended C9 at the concrete kind code 7. -/
theorem from_simple_coerces_bad_kind_witness :
    (FileAttr.fromSimple
      ⟨0, 0, ⟨0, 0⟩, ⟨0, 0⟩, ⟨0, 0⟩, ⟨0, 0⟩, 7, 0, 0, 0, 0, 0, 0, 0⟩).kind
      = FileType.RegularFile :=
  from_simple_coerces_bad_kind _ (by decide)

/-- C10: the kind numbering stored by `FileAttrSimple::new` and the one
decoded by the conversion to `fuser::FileAttr` are mutually consistent:
converting a freshly created record yields exactly
`FileType::from(t)`.  Meanwhile the stored code differs from the wire
encoding `u32::from(t)`: a directory is stored as 3 while its wire
encoding is 4. -/
theorem kind_numberings_mutually_consistent :
    (∀ (t : FileTypeSimple) (now : STime),
      (FileAttr.fromSimple (FileAttrSimple.new t now)).kind
        = FileType.fromSimple t) ∧
    (FileAttrSimple.new FileTypeSimple.Directory ⟨0, 0⟩).kind = 3 ∧
    fileTypeSimpleToU32 FileTypeSimple.Directory = 4 := by
  refine ⟨fun t now => ?_, rfl, rfl⟩
  cases t <;> rfl

/-- Insert into the association-list model of `BTreeMap<String,
String>`: overwrite the value in place when the key is present,
otherwise append the new binding.  This models `BTreeMap::insert`
faithfully for key membership, stored values and key uniqueness (only
the iteration order of the tree is not modelled, and no result below
depends on it). -/
def mapInsert (k v : String) : List (String × String) → List (String × String)
  | [] => [(k, v)]
  | (k', v') :: rest =>
    if k = k' then (k, v) :: rest else (k', v') :: mapInsert k v rest

/-- Remove a key from the association-list model (the first binding
carries the key, since keys are unique); models `BTreeMap::remove`. -/
def mapRemove (k : String) : List (String × String) → List (String × String)
  | [] => []
  | (k', v') :: rest =>
    if k = k' then rest else (k', v') :: mapRemove k rest

/-- The keys of the association-list model. -/
def mapKeys (m : List (String × String)) : List String := m.map Prod.fst

/-- Model of `pub struct SubDirectory`, a directory entry set mapping
child names to a one-character type tag. -/
structure SubDirectory where
  sub_dir : List (String × String)
deriving DecidableEq

/-- Embedding of `SubDirectory::new`: the set containing exactly the
self and parent entries, both tagged as directories. -/
def SubDirectory.new : SubDirectory :=
  ⟨[(".", "d"), ("..", "d")]⟩

/-- Embedding of `SubDirectory::add_dir`. -/
def SubDirectory.add_dir (s : SubDirectory) (dir : String) : SubDirectory :=
  ⟨mapInsert dir "d" s.sub_dir⟩

/-- Embedding of `SubDirectory::add_file`. -/
def SubDirectory.add_file (s : SubDirectory) (file : String) : SubDirectory :=
  ⟨mapInsert file "f" s.sub_dir⟩

/-- Embedding of `SubDirectory::delete_dir`. -/
def SubDirectory.delete_dir (s : SubDirectory) (dir : String) : SubDirectory :=
  ⟨mapRemove dir s.sub_dir⟩

/-- Embedding of `SubDirectory::delete_file`. -/
def SubDirectory.delete_file (s : SubDirectory) (file : String) : SubDirectory :=
  ⟨mapRemove file s.sub_dir⟩

/-- A key present before an insertion is present after it. -/
theorem mem_mapKeys_mapInsert (k v a : String) (m : List (String × String))
    (h : a ∈ mapKeys m) : a ∈ mapKeys (mapInsert k v m) := by
  induction m with
  | nil => simp [mapKeys] at h
  | cons p rest ih =>
    obtain ⟨k', v'⟩ := p
    by_cases hk : k = k'
    · simp only [mapKeys, List.map_cons, List.mem_cons] at h ⊢
      simp only [mapInsert, if_pos hk, List.map_cons, List.mem_cons]
      rcases h with h | h
      · exact Or.inl (h.trans hk.symm)
      · exact Or.inr h
    · simp only [mapKeys, List.map_cons, List.mem_cons] at h
      simp only [mapInsert, if_neg hk, mapKeys, List.map_cons, List.mem_cons]
      rcases h with h | h
      · exact Or.inl h
      · exact Or.inr (ih h)

/-- A key of the result of an insertion is the inserted key or an old
key. -/
theorem mem_mapKeys_of_mem_mapInsert (k v a : String)
    (m : List (String × String)) (h : a ∈ mapKeys (mapInsert k v m)) :
    a = k ∨ a ∈ mapKeys m := by
  induction m with
  | nil => simpa [mapInsert, mapKeys] using h
  | cons p rest ih =>
    obtain ⟨k', v'⟩ := p
    by_cases hk : k = k'
    · simp only [mapInsert, if_pos hk, mapKeys, List.map_cons, List.mem_cons] at h
      simp only [mapKeys, List.map_cons, List.mem_cons]
      rcases h with h | h
      · exact Or.inl h
      · exact Or.inr (Or.inr h)
    · simp only [mapInsert, if_neg hk, mapKeys, List.map_cons, List.mem_cons] at h
      simp only [mapKeys, List.map_cons, List.mem_cons]
      rcases h with h | h
      · exact Or.inr (Or.inl h)
      · rcases ih h with h | h
        · exact Or.inl h
        · exact Or.inr (Or.inr h)

/-- A key present before a removal of a DIFFERENT key is present after
it. -/
theorem mem_mapKeys_mapRemove (k a : String) (m : List (String × String))
    (h : a ∈ mapKeys m) (hne : a ≠ k) : a ∈ mapKeys (mapRemove k m) := by
  induction m with
  | nil => simp [mapKeys] at h
  | cons p rest ih =>
    obtain ⟨k', v'⟩ := p
    by_cases hk : k = k'
    · simp only [mapKeys, List.map_cons, List.mem_cons] at h
      simp only [mapRemove, if_pos hk]
      rcases h with h | h
      · exact absurd (h.trans hk.symm) hne
      · exact h
    · simp only [mapKeys, List.map_cons, List.mem_cons] at h
      simp only [mapRemove, if_neg hk, mapKeys, List.map_cons, List.mem_cons]
      rcases h with h | h
      · exact Or.inl h
      · exact Or.inr (ih h)

/-- A key of the result of a removal was a key before it. -/
theorem mem_mapKeys_of_mem_mapRemove (k a : String)
    (m : List (String × String)) (h : a ∈ mapKeys (mapRemove k m)) :
    a ∈ mapKeys m := by
  induction m with
  | nil => exact h
  | cons p rest ih =>
    obtain ⟨k', v'⟩ := p
    by_cases hk : k = k'
    · simp only [mapRemove, if_pos hk] at h
      simp only [mapKeys, List.map_cons, List.mem_cons]
      exact Or.inr h
    · simp only [mapRemove, if_neg hk, mapKeys, List.map_cons, List.mem_cons] at h
      simp only [mapKeys, List.map_cons, List.mem_cons]
      rcases h with h | h
      · exact Or.inl h
      · exact Or.inr (ih h)

/-- Insertion preserves key uniqueness. -/
theorem nodup_mapKeys_mapInsert (k v : String) (m : List (String × String))
    (h : (mapKeys m).Nodup) : (mapKeys (mapInsert k v m)).Nodup := by
  induction m with
  | nil => simp [mapInsert, mapKeys]
  | cons p rest ih =>
    obtain ⟨k', v'⟩ := p
    simp only [mapKeys, List.map_cons, List.nodup_cons] at h
    by_cases hk : k = k'
    · simp only [mapInsert, if_pos hk, mapKeys, List.map_cons, List.nodup_cons]
      exact ⟨hk ▸ h.1, h.2⟩
    · simp only [mapInsert, if_neg hk, mapKeys, List.map_cons, List.nodup_cons]
      refine ⟨fun hmem => ?_, ih h.2⟩
      rcases mem_mapKeys_of_mem_mapInsert k v k' rest hmem with heq | hmem2
      · exact hk heq.symm
      · exact h.1 hmem2

/-- Removal preserves key uniqueness. -/
theorem nodup_mapKeys_mapRemove (k : String) (m : List (String × String))
    (h : (mapKeys m).Nodup) : (mapKeys (mapRemove k m)).Nodup := by
  induction m with
  | nil => exact h
  | cons p rest ih =>
    obtain ⟨k', v'⟩ := p
    simp only [mapKeys, List.map_cons, List.nodup_cons] at h
    by_cases hk : k = k'
    · simpa only [mapRemove, if_pos hk] using h.2
    · simp only [mapRemove, if_neg hk, mapKeys, List.map_cons, List.nodup_cons]
      exact ⟨fun hmem => h.1 (mem_mapKeys_of_mem_mapRemove k k' rest hmem), ih h.2⟩

/-- Removing a key that was absent changes nothing. -/
theorem mapRemove_of_not_mem (k : String) (m : List (String × String))
    (h : k ∉ mapKeys m) : mapRemove k m = m := by
  induction m with
  | nil => rfl
  | cons p rest ih =>
    obtain ⟨k', v'⟩ := p
    simp only [mapKeys, List.map_cons, List.mem_cons, not_or] at h
    simp only [mapRemove, if_neg h.1, ih h.2]

/-- Inserting an absent key and then removing it restores the map. -/
theorem mapRemove_mapInsert (k v : String) (m : List (String × String))
    (h : k ∉ mapKeys m) : mapRemove k (mapInsert k v m) = m := by
  induction m with
  | nil => simp [mapInsert, mapRemove]
  | cons p rest ih =>
    obtain ⟨k', v'⟩ := p
    simp only [mapKeys, List.map_cons, List.mem_cons, not_or] at h
    simp only [mapInsert, if_neg h.1, mapRemove, if_neg h.1, ih h.2]

/-- One mutation of a directory entry set, covering the four operations
`SubDirectory` offers. -/
inductive DirOp where
  | addDir (name : String)
  | addFile (name : String)
  | deleteDir (name : String)
  | deleteFile (name : String)
deriving DecidableEq

/-- Apply one mutation to a directory entry set. -/
def applyDirOp (s : SubDirectory) : DirOp → SubDirectory
  | .addDir n => s.add_dir n
  | .addFile n => s.add_file n
  | .deleteDir n => s.delete_dir n
  | .deleteFile n => s.delete_file n

/-- True when a mutation is not a deletion of the reserved self or
parent entry (the code does not protect those names, so the invariant
below needs this side condition). -/
def DirOp.sparesDots : DirOp → Bool
  | .addDir _ => true
  | .addFile _ => true
  | .deleteDir n => decide (n ≠ ".") && decide (n ≠ "..")
  | .deleteFile n => decide (n ≠ ".") && decide (n ≠ "..")

/-- The reserved entries are present and keys are unique: preserved by
any single mutation that does not delete a reserved name. -/
theorem applyDirOp_preserves_dots (s : SubDirectory) (op : DirOp)
    (h1 : "." ∈ mapKeys s.sub_dir) (h2 : ".." ∈ mapKeys s.sub_dir)
    (h3 : (mapKeys s.sub_dir).Nodup) (hop : op.sparesDots = true) :
    "." ∈ mapKeys (applyDirOp s op).sub_dir ∧
    ".." ∈ mapKeys (applyDirOp s op).sub_dir ∧
    (mapKeys (applyDirOp s op).sub_dir).Nodup := by
  cases op with
  | addDir n =>
    exact ⟨mem_mapKeys_mapInsert n "d" "." s.sub_dir h1,
      mem_mapKeys_mapInsert n "d" ".." s.sub_dir h2,
      nodup_mapKeys_mapInsert n "d" s.sub_dir h3⟩
  | addFile n =>
    exact ⟨mem_mapKeys_mapInsert n "f" "." s.sub_dir h1,
      mem_mapKeys_mapInsert n "f" ".." s.sub_dir h2,
      nodup_mapKeys_mapInsert n "f" s.sub_dir h3⟩
  | deleteDir n =>
    simp only [DirOp.sparesDots, Bool.and_eq_true, decide_eq_true_eq] at hop
    exact ⟨mem_mapKeys_mapRemove n "." s.sub_dir h1 (fun he => hop.1 he.symm),
      mem_mapKeys_mapRemove n ".." s.sub_dir h2 (fun he => hop.2 he.symm),
      nodup_mapKeys_mapRemove n s.sub_dir h3⟩
  | deleteFile n =>
    simp only [DirOp.sparesDots, Bool.and_eq_true, decide_eq_true_eq] at hop
    exact ⟨mem_mapKeys_mapRemove n "." s.sub_dir h1 (fun he => hop.1 he.symm),
      mem_mapKeys_mapRemove n ".." s.sub_dir h2 (fun he => hop.2 he.symm),
      nodup_mapKeys_mapRemove n s.sub_dir h3⟩

/-- Folding a whole mutation sequence preserves the invariant. -/
theorem foldl_applyDirOp_preserves_dots (ops : List DirOp) (s : SubDirectory)
    (h1 : "." ∈ mapKeys s.sub_dir) (h2 : ".." ∈ mapKeys s.sub_dir)
    (h3 : (mapKeys s.sub_dir).Nodup)
    (hops : ∀ op ∈ ops, op.sparesDots = true) :
    "." ∈ mapKeys (ops.foldl applyDirOp s).sub_dir ∧
    ".." ∈ mapKeys (ops.foldl applyDirOp s).sub_dir ∧
    (mapKeys (ops.foldl applyDirOp s).sub_dir).Nodup := by
  induction ops generalizing s with
  | nil => exact ⟨h1, h2, h3⟩
  | cons op rest ih =>
    have hop : op.sparesDots = true := hops op (List.mem_cons_self op rest)
    obtain ⟨g1, g2, g3⟩ := applyDirOp_preserves_dots s op h1 h2 h3 hop
    exact ih (applyDirOp s op) g1 g2 g3
      (fun o ho => hops o (List.mem_cons_of_mem op ho))

/-- C7 counterexample: the claim says the reserved entries are always
present under every operation sequence, but `delete_dir(".")` removes
the self entry from a fresh set (nothing in the code protects the
reserved names). -/
theorem dot_entry_deletable :
    "." ∉ mapKeys (SubDirectory.new.delete_dir ".").sub_dir := by
  decide

/-- C7 as amended: starting from `SubDirectory::new`, the reserved
entries `.` and `..` are present, each exactly once (keys are unique),
after every sequence of `add_dir`/`add_file`/`delete_dir`/`delete_file`
operations in which no deletion targets `.` or `..` themselves; the
code does not protect the reserved names from deletion. -/
theorem dot_entries_always_present (ops : List DirOp)
    (hops : ∀ op ∈ ops, op.sparesDots = true) :
    "." ∈ mapKeys (ops.foldl applyDirOp SubDirectory.new).sub_dir ∧
    ".." ∈ mapKeys (ops.foldl applyDirOp SubDirectory.new).sub_dir ∧
    (mapKeys (ops.foldl applyDirOp SubDirectory.new).sub_dir).Nodup :=
  foldl_applyDirOp_preserves_dots ops SubDirectory.new
    (by decide) (by decide) (by decide) hops

/-- Witness for the amended C7 at a concrete operation sequence. -/
theorem dot_entries_always_present_witness :
    "." ∈ mapKeys (([DirOp.addFile "a", DirOp.addDir "b",
        DirOp.deleteFile "a"].foldl applyDirOp SubDirectory.new)).sub_dir ∧
    ".." ∈ mapKeys (([DirOp.addFile "a", DirOp.addDir "b",
        DirOp.deleteFile "a"].foldl applyDirOp SubDirectory.new)).sub_dir ∧
    (mapKeys (([DirOp.addFile "a", DirOp.addDir "b",
        DirOp.deleteFile "a"].foldl applyDirOp SubDirectory.new)).sub_dir).Nodup :=
  dot_entries_always_present
    [DirOp.addFile "a", DirOp.addDir "b", DirOp.deleteFile "a"] (by decide)

/-- C8 counterexample: the claim says add-then-remove of a name always
restores the prior set, but for a name ALREADY present this loses the
entry: adding `.` as a file to a fresh set overwrites the reserved
entry, and the removal then deletes it outright, so the resulting set
differs from the original. -/
theorem add_remove_present_name_loses_entry :
    (SubDirectory.new.add_file ".").delete_file "." ≠ SubDirectory.new := by
  decide

/-- C8 as amended: for a name `n` NOT already present in the set,
adding `n` (as a directory or as a file) and then removing it restores
the set exactly; removing an absent name is a no-op, not an error; and
`new()` yields exactly the two-entry set mapping `.` and `..` to the
directory tag. -/
theorem add_then_remove_restores (s : SubDirectory) (n : String)
    (h : n ∉ mapKeys s.sub_dir) :
    (s.add_dir n).delete_dir n = s ∧
    (s.add_file n).delete_file n = s ∧
    s.delete_dir n = s ∧
    s.delete_file n = s ∧
    SubDirectory.new = ⟨[(".", "d"), ("..", "d")]⟩ := by
  refine ⟨?_, ?_, ?_, ?_, rfl⟩
  · show SubDirectory.mk (mapRemove n (mapInsert n "d" s.sub_dir)) = s
    rw [mapRemove_mapInsert n "d" s.sub_dir h]
  · show SubDirectory.mk (mapRemove n (mapInsert n "f" s.sub_dir)) = s
    rw [mapRemove_mapInsert n "f" s.sub_dir h]
  · show SubDirectory.mk (mapRemove n s.sub_dir) = s
    rw [mapRemove_of_not_mem n s.sub_dir h]
  · show SubDirectory.mk (mapRemove n s.sub_dir) = s
    rw [mapRemove_of_not_mem n s.sub_dir h]

/-- Witness for the amended C8 at a fresh set and the absent name
`a.txt`. -/
theorem add_then_remove_restores_witness :
    (SubDirectory.new.add_dir "a.txt").delete_dir "a.txt" = SubDirectory.new ∧
    (SubDirectory.new.add_file "a.txt").delete_file "a.txt" = SubDirectory.new ∧
    SubDirectory.new.delete_dir "a.txt" = SubDirectory.new ∧
    SubDirectory.new.delete_file "a.txt" = SubDirectory.new ∧
    SubDirectory.new = ⟨[(".", "d"), ("..", "d")]⟩ :=
  add_then_remove_restores SubDirectory.new "a.txt" (by decide)
